import Mathlib

/-!
Verification of the jira2you terminal client against its design
specification.  The Rust sources are shallowly embedded: pure data types
become Lean structures, `&mut self` methods become state-passing
functions, every network call of the `JiraClient` is modelled by an
oracle record whose fields return `Except JiraError`, and a Rust method
that both mutates `self` and may return `Err` (propagated with the `?`
operator) becomes a function into `App × Option JiraError` — the first
component is the state left behind, the second the propagated error.
Machine integers (`u32`, `usize`) are modelled as `Nat`; none of the
modelled code paths can overflow or underflow them except where noted.
Rust `String`s are Lean `String`s; the text buffer of `InputView`, which
the Rust code indexes byte-wise but always at character boundaries in
the modelled (ASCII) operations, is a `List Char` with the cursor as an
index into that list.  Fields of the wire records that no modelled
operation reads (timestamps, avatars, status categories, ...) are
omitted from the embedding.
-/

namespace Jira2You

/-! ## A model of Rust `Vec::sort_by`

`slice::sort_by` is a stable sort by a caller comparator.  All the
comparators in this program are total preorders (`b.cmp(&a)` on strings
or integers), so the observable result is characterised by: it is a
permutation of the input that is sorted (`Pairwise`) for the comparator,
ties kept in input order.  We model it by a stable insertion sort, which
has the same observable behaviour and reduces in the kernel. -/

def insertSorted {α : Type} (le : α → α → Bool) (x : α) : List α → List α
| [] => [x]
| y :: ys => if le x y then x :: y :: ys else y :: insertSorted le x ys

def sortBy {α : Type} (le : α → α → Bool) : List α → List α
| [] => []
| x :: xs => insertSorted le x (sortBy le xs)

theorem insertSorted_perm {α : Type} (le : α → α → Bool) (x : α) (l : List α) :
    (insertSorted le x l).Perm (x :: l) := by
  induction l with
  | nil => simp [insertSorted]
  | cons y ys ih =>
    cases h : le x y with
    | true => simp [insertSorted, h]
    | false =>
      simp only [insertSorted, h, Bool.false_eq_true, if_false]
      exact (ih.cons y).trans (List.Perm.swap x y ys)

theorem sortBy_perm {α : Type} (le : α → α → Bool) (l : List α) :
    (sortBy le l).Perm l := by
  induction l with
  | nil => simp [sortBy]
  | cons x xs ih => exact (insertSorted_perm le x (sortBy le xs)).trans (ih.cons x)

theorem mem_insertSorted {α : Type} {le : α → α → Bool} {x a : α} {l : List α} :
    a ∈ insertSorted le x l ↔ a = x ∨ a ∈ l := by
  have h := (insertSorted_perm le x l).mem_iff (a := a)
  simpa using h

theorem insertSorted_pairwise {α : Type} {le : α → α → Bool}
    (htrans : ∀ a b c, le a b = true → le b c = true → le a c = true)
    (htot : ∀ a b, le a b = true ∨ le b a = true)
    (x : α) (l : List α) (hl : l.Pairwise (fun a b => le a b = true)) :
    (insertSorted le x l).Pairwise (fun a b => le a b = true) := by
  induction l with
  | nil => simp [insertSorted]
  | cons y ys ih =>
    rcases List.pairwise_cons.mp hl with ⟨h1, h2⟩
    cases h : le x y with
    | true =>
      simp only [insertSorted, h, if_true]
      refine List.pairwise_cons.mpr ⟨?_, hl⟩
      intro z hz
      rcases List.mem_cons.mp hz with rfl | hz'
      · exact h
      · exact htrans x y z h (h1 z hz')
    | false =>
      have hyx : le y x = true := by
        rcases htot x y with h' | h'
        · exact absurd h' (by simp [h])
        · exact h'
      simp only [insertSorted, h, Bool.false_eq_true, if_false]
      refine List.pairwise_cons.mpr ⟨?_, ih h2⟩
      intro z hz
      rcases mem_insertSorted.mp hz with rfl | hz'
      · exact hyx
      · exact h1 z hz'

theorem sortBy_pairwise {α : Type} {le : α → α → Bool}
    (htrans : ∀ a b c, le a b = true → le b c = true → le a c = true)
    (htot : ∀ a b, le a b = true ∨ le b a = true) (l : List α) :
    (sortBy le l).Pairwise (fun a b => le a b = true) := by
  induction l with
  | nil => simp [sortBy]
  | cons x xs ih => exact insertSorted_pairwise htrans htot x (sortBy le xs) ih

/-! ## Lexicographic order on character lists

Rust `String` ordering (`Ord for str`) is lexicographic on the UTF-8
bytes, which for valid UTF-8 coincides with lexicographic order on the
code points, i.e. on `String.toList`.  `charListLe a b` decides `a ≤ b`
in that order and reduces in the kernel (Lean's own `String` order
decision procedure does not). -/

def charListLe : List Char → List Char → Bool
| [], _ => true
| _ :: _, [] => false
| a :: as, b :: bs => if a < b then true else if b < a then false else charListLe as bs

theorem charListLe_total : ∀ a b, charListLe a b = true ∨ charListLe b a = true := by
  intro a
  induction a with
  | nil => intro b; left; simp [charListLe]
  | cons x xs ih =>
    intro b
    cases b with
    | nil => right; simp [charListLe]
    | cons y ys =>
      rcases lt_trichotomy x y with hxy | hxy | hxy
      · left; simp [charListLe, hxy]
      · subst hxy
        rcases ih ys with h | h
        · left; simp [charListLe, h]
        · right; simp [charListLe, h]
      · right; simp [charListLe, hxy]

theorem charListLe_trans :
    ∀ a b c, charListLe a b = true → charListLe b c = true → charListLe a c = true := by
  intro a
  induction a with
  | nil => intro b c _ _; simp [charListLe]
  | cons x xs ih =>
    intro b c hab hbc
    cases b with
    | nil => simp [charListLe] at hab
    | cons y ys =>
      cases c with
      | nil => simp [charListLe] at hbc
      | cons z zs =>
        rcases lt_trichotomy x y with hxy | hxy | hxy
        · rcases lt_trichotomy y z with hyz | hyz | hyz
          · have : x < z := lt_trans hxy hyz
            simp [charListLe, this]
          · subst hyz; simp [charListLe, hxy]
          · have h1 : ¬ y < z := asymm hyz
            simp [charListLe, h1, hyz] at hbc
        · subst hxy
          rcases lt_trichotomy x z with hyz | hyz | hyz
          · simp [charListLe, hyz]
          · subst hyz
            have h1 : ¬ x < x := lt_irrefl x
            simp only [charListLe, h1, if_false] at hab hbc ⊢
            exact ih ys zs hab hbc
          · have h1 : ¬ x < z := asymm hyz
            simp [charListLe, h1, hyz] at hbc
        · have h1 : ¬ x < y := asymm hxy
          simp [charListLe, h1, hxy] at hab

/-! ## Data model (src/jira/models.rs) -/

structure Status where
  id : String
  name : String
deriving DecidableEq

structure IssueFields where
  summary : String
  status : Status
deriving DecidableEq

structure Issue where
  id : String
  key : String
  fields : IssueFields
deriving DecidableEq

structure Sprint where
  id : Nat
  name : String
  state : String
  goal : Option String
deriving DecidableEq

structure BoardLocation where
  project_key : Option String
deriving DecidableEq

structure Board where
  id : Nat
  name : String
  board_type : String
  location : Option BoardLocation
deriving DecidableEq

structure Project where
  id : String
  key : String
  name : String
  project_type_key : String
deriving DecidableEq

structure Transition where
  id : String
  name : String
  «to» : Status
deriving DecidableEq

structure SprintUpdate where
  state : Option String
  name : Option String
  goal : Option String
deriving DecidableEq

def SprintUpdate.default : SprintUpdate :=
  { state := none, name := none, goal := none }

/-- A paginated response of the agile `GET /board/{id}/sprint` endpoint. -/
structure SprintsResponse where
  max_results : Nat
  start_at : Nat
  total : Nat
  is_last : Option Bool
  values : List Sprint
deriving DecidableEq

/-- A "request failed" condition (non-success status, transport or
deserialization failure); the program only propagates it. -/
structure JiraError where
  msg : String
deriving DecidableEq

/-! ## Pagination (src/jira/client.rs, `JiraClient::get_board_sprints`)

The remote endpoint is modelled as a function `srv` from the requested
`startAt` offset to the response the server gives for that offset (the
board id is fixed for one call).  The Rust `loop` has no bound and may
iterate forever against a misbehaving server, so the embedding carries
explicit fuel: `none` means the fuel ran out before the loop broke. -/

def get_board_sprints_loop (srv : Nat → SprintsResponse) :
    Nat → Nat → List Sprint → Option (List Sprint)
| 0, _, _ => none
| fuel + 1, start_at, all_sprints =>
  let response := srv start_at
  let all_sprints := all_sprints ++ response.values
  if response.is_last.getD true then
    some all_sprints
  else
    get_board_sprints_loop srv fuel (response.start_at + response.max_results) all_sprints

def get_board_sprints (srv : Nat → SprintsResponse) (fuel : Nat) : Option (List Sprint) :=
  get_board_sprints_loop srv fuel 0 []

/-- Specification predicate: `servesPages srv pages s` says that asked at offset `s` the server
answers with the first page, and each following page is served at the
offset obtained from the previous response as `startAt + maxResults`.
This is the offset schedule the specification prescribes for the
client's requests. -/
def servesPages (srv : Nat → SprintsResponse) : List SprintsResponse → Nat → Prop
| [], _ => True
| r :: rest, s => srv s = r ∧ servesPages srv rest (r.start_at + r.max_results)

theorem get_board_sprints_loop_spec (srv : Nat → SprintsResponse) :
    ∀ (front : List SprintsResponse) (last : SprintsResponse)
      (s : Nat) (acc : List Sprint) (fuel : Nat),
      servesPages srv (front ++ [last]) s →
      (∀ r ∈ front, r.is_last = some false) →
      last.is_last.getD true = true →
      front.length + 1 ≤ fuel →
      get_board_sprints_loop srv fuel s acc =
        some (acc ++ (front ++ [last]).flatMap (fun r => r.values)) := by
  intro front
  induction front with
  | nil =>
    intro last s acc fuel hserve _hfront hlast hfuel
    obtain ⟨fuel, rfl⟩ : ∃ f, fuel = f + 1 := ⟨fuel - 1, by omega⟩
    rcases hserve with ⟨hs, -⟩
    simp [get_board_sprints_loop, hs, hlast]
  | cons r front ih =>
    intro last s acc fuel hserve hfront hlast hfuel
    obtain ⟨fuel, rfl⟩ : ∃ f, fuel = f + 1 := ⟨fuel - 1, by omega⟩
    rcases hserve with ⟨hs, hrest⟩
    have hr : r.is_last = some false := hfront r (List.mem_cons_self r front)
    have hfront' : ∀ x ∈ front, x.is_last = some false := fun x hx =>
      hfront x (List.mem_cons_of_mem r hx)
    have hfuel' : front.length + 1 ≤ fuel := by
      simp only [List.length_cons] at hfuel; omega
    simp only [get_board_sprints_loop, hs, hr, Option.getD_some, Bool.false_eq_true, if_false]
    rw [ih last (r.start_at + r.max_results) (acc ++ r.values) fuel hrest hfront' hlast hfuel']
    simp

/-- C1: the aggregated sprint fetch walks the server's pages at the
offsets `0`, then `startAt + maxResults` of each successive response,
appends every page's `values` in order, and stops at the first page
whose `isLast` is `true` or absent (absent is treated as `true`): for a
page sequence of `front` pages all carrying `isLast = false` followed by
one terminating page, the result is exactly the concatenation of those
pages' items, and `front.length + 1` requests suffice.  With `front`
empty and `isLast` absent this is the single-page case. -/
theorem get_board_sprints_paginates (srv : Nat → SprintsResponse)
    (front : List SprintsResponse) (last : SprintsResponse) (fuel : Nat)
    (hserve : servesPages srv (front ++ [last]) 0)
    (hfront : ∀ r ∈ front, r.is_last = some false)
    (hlast : last.is_last.getD true = true)
    (hfuel : front.length + 1 ≤ fuel) :
    get_board_sprints srv fuel =
      some ((front ++ [last]).flatMap (fun r => r.values)) := by
  unfold get_board_sprints
  rw [get_board_sprints_loop_spec srv front last 0 [] fuel hserve hfront hlast hfuel]
  simp

def c1Sprint (n : Nat) : Sprint :=
  { id := n, name := "S" ++ toString n, state := "active", goal := none }

def c1PageA : SprintsResponse :=
  { max_results := 2, start_at := 0, total := 3, is_last := some false,
    values := [c1Sprint 1, c1Sprint 2] }

def c1PageB : SprintsResponse :=
  { max_results := 2, start_at := 2, total := 3, is_last := none,
    values := [c1Sprint 3] }

def c1Junk : SprintsResponse :=
  { max_results := 2, start_at := 4, total := 3, is_last := some false,
    values := [c1Sprint 99] }

def c1Server (s : Nat) : SprintsResponse :=
  if s = 0 then c1PageA else if s = 2 then c1PageB else c1Junk

/-- C1 witness: a concrete two-page exchange (second page omits
`isLast`, so it terminates the loop) aggregates to the three sprints in
order, never touching the junk the server would serve past offset 2. -/
theorem get_board_sprints_paginates_witness :
    get_board_sprints c1Server 2 = some [c1Sprint 1, c1Sprint 2, c1Sprint 3] := by
  have h := get_board_sprints_paginates c1Server [c1PageA] c1PageB 2
    (by exact ⟨rfl, rfl, trivial⟩) (by decide) (by decide) (by decide)
  simpa [c1PageA, c1PageB] using h

/-! ## View state holders (src/ui/components)

`ratatui::widgets::ListState` is reduced to its `selected` cursor; the
scroll offset it also carries is pure presentation and read by nobody in
the modelled code. -/

structure ListState where
  selected : Option Nat
deriving DecidableEq

def ListState.default : ListState := { selected := none }

def ListState.select (s : ListState) (i : Option Nat) : ListState :=
  { s with selected := i }

/-! ### SprintView (sprint_view.rs) -/

structure SprintView where
  issues : List Issue
  state : ListState
  sprint_name : String
  sprint_goal : Option String
deriving DecidableEq

def SprintView.new : SprintView :=
  { issues := [], state := ListState.default, sprint_name := "Sprint", sprint_goal := none }

def issueKeyDesc (a b : Issue) : Bool := charListLe b.key.toList a.key.toList

def SprintView.set_issues (v : SprintView) (issues : List Issue)
    (sprint_name : String) (sprint_goal : Option String) : SprintView :=
  let issues := sortBy issueKeyDesc issues
  let v := { v with issues := issues, sprint_name := sprint_name, sprint_goal := sprint_goal }
  if !v.issues.isEmpty then { v with state := v.state.select (some 0) } else v

def SprintView.next (v : SprintView) : SprintView :=
  let i := match v.state.selected with
    | some i => if i ≥ v.issues.length - 1 then 0 else i + 1
    | none => 0
  { v with state := v.state.select (some i) }

def SprintView.previous (v : SprintView) : SprintView :=
  let i := match v.state.selected with
    | some i => if i = 0 then v.issues.length - 1 else i - 1
    | none => 0
  { v with state := v.state.select (some i) }

def SprintView.selected_issue (v : SprintView) : Option Issue :=
  v.state.selected.bind (fun i => v.issues.get? i)

/-! ### BacklogView (backlog_view.rs) -/

structure BacklogView where
  issues : List Issue
  state : ListState
deriving DecidableEq

def BacklogView.new : BacklogView :=
  { issues := [], state := ListState.default }

def BacklogView.set_issues (v : BacklogView) (issues : List Issue) : BacklogView :=
  let issues := sortBy issueKeyDesc issues
  let v := { v with issues := issues }
  if !v.issues.isEmpty then { v with state := v.state.select (some 0) } else v

def BacklogView.next (v : BacklogView) : BacklogView :=
  let i := match v.state.selected with
    | some i => if i ≥ v.issues.length - 1 then 0 else i + 1
    | none => 0
  { v with state := v.state.select (some i) }

def BacklogView.previous (v : BacklogView) : BacklogView :=
  let i := match v.state.selected with
    | some i => if i = 0 then v.issues.length - 1 else i - 1
    | none => 0
  { v with state := v.state.select (some i) }

def BacklogView.selected_issue (v : BacklogView) : Option Issue :=
  v.state.selected.bind (fun i => v.issues.get? i)

/-! ### SprintSelector (sprint_selector.rs) -/

structure SprintSelector where
  sprints : List Sprint
  state : ListState
  is_active : Bool
deriving DecidableEq

def SprintSelector.new : SprintSelector :=
  { sprints := [], state := ListState.default, is_active := false }

def SprintSelector.set_sprints (v : SprintSelector) (sprints : List Sprint) : SprintSelector :=
  let sprints := sortBy (fun a b : Sprint => decide (b.id ≤ a.id)) sprints
  let v := { v with sprints := sprints }
  if !v.sprints.isEmpty then { v with state := v.state.select (some 0) } else v

def SprintSelector.activate (v : SprintSelector) : SprintSelector :=
  { v with is_active := true }

def SprintSelector.deactivate (v : SprintSelector) : SprintSelector :=
  { v with is_active := false }

def SprintSelector.next (v : SprintSelector) : SprintSelector :=
  if !v.is_active then v else
  let i := match v.state.selected with
    | some i => if i ≥ v.sprints.length - 1 then 0 else i + 1
    | none => 0
  { v with state := v.state.select (some i) }

def SprintSelector.previous (v : SprintSelector) : SprintSelector :=
  if !v.is_active then v else
  let i := match v.state.selected with
    | some i => if i = 0 then v.sprints.length - 1 else i - 1
    | none => 0
  { v with state := v.state.select (some i) }

def SprintSelector.selected_sprint (v : SprintSelector) : Option Sprint :=
  v.state.selected.bind (fun i => v.sprints.get? i)

def SprintSelector.selected_sprint_id (v : SprintSelector) : Option Nat :=
  v.selected_sprint.map (fun s => s.id)

/-! ### BoardSelector (board_selector.rs) -/

structure BoardSelector where
  boards : List Board
  state : ListState
  is_active : Bool
deriving DecidableEq

def BoardSelector.new : BoardSelector :=
  { boards := [], state := ListState.default, is_active := false }

def BoardSelector.set_boards (v : BoardSelector) (boards : List Board) : BoardSelector :=
  let boards := sortBy (fun a b : Board => charListLe b.name.toList a.name.toList) boards
  let v := { v with boards := boards }
  if !v.boards.isEmpty then { v with state := v.state.select (some 0) } else v

def BoardSelector.activate (v : BoardSelector) : BoardSelector :=
  { v with is_active := true }

def BoardSelector.deactivate (v : BoardSelector) : BoardSelector :=
  { v with is_active := false }

def BoardSelector.next (v : BoardSelector) : BoardSelector :=
  if !v.is_active then v else
  let i := match v.state.selected with
    | some i => if i ≥ v.boards.length - 1 then 0 else i + 1
    | none => 0
  { v with state := v.state.select (some i) }

def BoardSelector.previous (v : BoardSelector) : BoardSelector :=
  if !v.is_active then v else
  let i := match v.state.selected with
    | some i => if i = 0 then v.boards.length - 1 else i - 1
    | none => 0
  { v with state := v.state.select (some i) }

def BoardSelector.selected_board (v : BoardSelector) : Option Board :=
  v.state.selected.bind (fun i => v.boards.get? i)

def BoardSelector.selected_board_id (v : BoardSelector) : Option Nat :=
  v.selected_board.map (fun b => b.id)

/-! ### ProjectSelector (project_selector.rs) -/

structure ProjectSelector where
  projects : List Project
  state : ListState
  is_active : Bool
deriving DecidableEq

def ProjectSelector.new : ProjectSelector :=
  { projects := [], state := ListState.default, is_active := false }

def ProjectSelector.set_projects (v : ProjectSelector) (projects : List Project) : ProjectSelector :=
  let projects := sortBy (fun a b : Project => charListLe b.name.toList a.name.toList) projects
  let v := { v with projects := projects }
  if !v.projects.isEmpty then { v with state := v.state.select (some 0) } else v

def ProjectSelector.activate (v : ProjectSelector) : ProjectSelector :=
  { v with is_active := true }

def ProjectSelector.deactivate (v : ProjectSelector) : ProjectSelector :=
  { v with is_active := false }

def ProjectSelector.next (v : ProjectSelector) : ProjectSelector :=
  if !v.is_active then v else
  let i := match v.state.selected with
    | some i => if i ≥ v.projects.length - 1 then 0 else i + 1
    | none => 0
  { v with state := v.state.select (some i) }

def ProjectSelector.previous (v : ProjectSelector) : ProjectSelector :=
  if !v.is_active then v else
  let i := match v.state.selected with
    | some i => if i = 0 then v.projects.length - 1 else i - 1
    | none => 0
  { v with state := v.state.select (some i) }

def ProjectSelector.selected_project (v : ProjectSelector) : Option Project :=
  v.state.selected.bind (fun i => v.projects.get? i)

/-! ### IssueDetailView (issue_detail.rs) -/

structure IssueDetailView where
  issue : Option Issue
  transitions : List Transition
  transition_state : ListState
  show_transitions : Bool
deriving DecidableEq

def IssueDetailView.new : IssueDetailView :=
  { issue := none, transitions := [], transition_state := ListState.default,
    show_transitions := false }

def IssueDetailView.set_issue (v : IssueDetailView) (issue : Issue) : IssueDetailView :=
  { v with issue := some issue }

def IssueDetailView.set_transitions (v : IssueDetailView) (transitions : List Transition) :
    IssueDetailView :=
  let v := { v with transitions := transitions }
  if !v.transitions.isEmpty then { v with transition_state := v.transition_state.select (some 0) }
  else v

def IssueDetailView.next_transition (v : IssueDetailView) : IssueDetailView :=
  let i := match v.transition_state.selected with
    | some i => if i ≥ v.transitions.length - 1 then 0 else i + 1
    | none => 0
  { v with transition_state := v.transition_state.select (some i) }

def IssueDetailView.previous_transition (v : IssueDetailView) : IssueDetailView :=
  let i := match v.transition_state.selected with
    | some i => if i = 0 then v.transitions.length - 1 else i - 1
    | none => 0
  { v with transition_state := v.transition_state.select (some i) }

def IssueDetailView.selected_transition (v : IssueDetailView) : Option Transition :=
  v.transition_state.selected.bind (fun i => v.transitions.get? i)

/-! ### InputView (input.rs)

The buffer is the character list of the Rust `String`; the cursor is an
index into it (the Rust code uses byte offsets, which coincide with
character indices on the ASCII input the key handler feeds it). -/

structure InputView where
  input : List Char
  title : String
  cursor_position : Nat
deriving DecidableEq

def InputView.new (title : String) : InputView :=
  { input := [], title := title, cursor_position := 0 }

def InputView.push_char (v : InputView) (c : Char) : InputView :=
  { v with input := v.input.insertIdx v.cursor_position c,
           cursor_position := v.cursor_position + 1 }

def InputView.pop_char (v : InputView) : InputView :=
  if v.cursor_position > 0 then
    let pos := v.cursor_position - 1
    { v with cursor_position := pos, input := v.input.eraseIdx pos }
  else v

def InputView.move_cursor_left (v : InputView) : InputView :=
  if v.cursor_position > 0 then { v with cursor_position := v.cursor_position - 1 } else v

def InputView.move_cursor_right (v : InputView) : InputView :=
  if v.cursor_position < v.input.length then
    { v with cursor_position := v.cursor_position + 1 }
  else v

def InputView.clear (v : InputView) : InputView :=
  { v with input := [], cursor_position := 0 }

def InputView.get_input (v : InputView) : List Char := v.input

/-! ## Events and key codes (src/ui/events.rs, crossterm)

Only the key codes the handlers inspect are modelled; the modifier
argument every handler ignores is dropped. -/

inductive KeyCode where
| Char (c : Char)
| Enter
| Esc
| Backspace
| Tab
| Left
| Right
| Up
| Down
deriving DecidableEq

inductive Event where
| Key (code : KeyCode)
| Tick
| Quit
deriving DecidableEq

/-! ## Configuration (src/config/mod.rs)

Only the field the controller reads and writes is kept. -/

structure JiraConfig where
  default_board_id : Option Nat
deriving DecidableEq

structure Config where
  jira : JiraConfig
deriving DecidableEq

/-! ## Application controller (src/ui/app.rs)

The `JiraClient` is modelled as an oracle: one `Except`-valued function
per remote capability the handlers invoke.  Determinism of the oracle is
harmless here because no modelled step repeats a call with the same
arguments. -/

structure JiraClient where
  get_issue : String → Except JiraError Issue
  get_sprint_issues : Nat → Nat → Except JiraError (List Issue)
  get_backlog : Nat → Except JiraError (List Issue)
  get_transitions : String → Except JiraError (List Transition)
  transition_issue : String → String → Except JiraError Unit
  add_comment : String → List Char → Except JiraError Unit
  get_boards : Except JiraError (List Board)
  get_board_sprints : Nat → Except JiraError (List Sprint)
  update_sprint : Nat → SprintUpdate → Except JiraError Sprint

inductive AppMode where
| Sprint
| SprintSelector
| BoardSelector
| ProjectSelector
| Backlog
| IssueDetail
| Help
| AddComment
| EditIssue
| EditSprintName
deriving DecidableEq

structure App where
  mode : AppMode
  show_help : Bool
  config : Config
  sprint_view : SprintView
  sprint_selector : SprintSelector
  board_selector : BoardSelector
  project_selector : ProjectSelector
  backlog_view : BacklogView
  issue_detail_view : IssueDetailView
  input_view : InputView
  current_tab : Nat
  should_quit : Bool
  current_sprint_id : Option Nat
  available_boards : List Board
  available_sprints : List Sprint
  available_projects : List Project
deriving DecidableEq

/-- The initial controller state `App::new` (the embedded fields of
app.rs lines 63-82). -/
def App.new (config : Config) : App :=
  { mode := AppMode.Sprint,
    show_help := false,
    config := config,
    sprint_view := SprintView.new,
    sprint_selector := SprintSelector.new,
    board_selector := BoardSelector.new,
    project_selector := ProjectSelector.new,
    backlog_view := BacklogView.new,
    issue_detail_view := IssueDetailView.new,
    input_view := InputView.new "Input",
    current_tab := 0,
    should_quit := false,
    current_sprint_id := none,
    available_boards := [],
    available_sprints := [],
    available_projects := [] }

/-- A `&mut self` method returning `Result<()>`: the state it leaves
behind plus the error it propagates, if any. -/
abbrev Step := App × Option JiraError

def App.refresh_sprints (st : App) (c : JiraClient) : Step :=
  match st.config.jira.default_board_id with
  | none => (st, none)
  | some board_id =>
    match c.get_board_sprints board_id with
    | Except.error e => (st, some e)
    | Except.ok sprints =>
      ({ st with available_sprints := sprints,
                 sprint_selector := st.sprint_selector.set_sprints sprints }, none)

def App.refresh_sprint (st : App) (c : JiraClient) : Step :=
  match st.config.jira.default_board_id with
  | none => (st, none)
  | some board_id =>
    let loaded : Except JiraError App :=
      if st.available_sprints.isEmpty then
        match c.get_board_sprints board_id with
        | Except.error e => Except.error e
        | Except.ok sprints => Except.ok { st with available_sprints := sprints }
      else Except.ok st
    match loaded with
    | Except.error e => (st, some e)
    | Except.ok st =>
      let target := match st.current_sprint_id with
        | some current_id => st.available_sprints.find? (fun s : Sprint => s.id == current_id)
        | none => st.available_sprints.getLast?
      match target with
      | some sprint =>
        let st := { st with current_sprint_id := some sprint.id }
        match c.get_sprint_issues board_id sprint.id with
        | Except.error e => (st, some e)
        | Except.ok issues =>
          ({ st with sprint_view := st.sprint_view.set_issues issues sprint.name sprint.goal },
           none)
      | none =>
        ({ st with sprint_view := st.sprint_view.set_issues [] "No Sprints Available" none },
         none)

def App.load_backlog (st : App) (c : JiraClient) : Step :=
  match st.config.jira.default_board_id with
  | none => (st, none)
  | some board_id =>
    match c.get_backlog board_id with
    | Except.error e => (st, some e)
    | Except.ok issues => ({ st with backlog_view := st.backlog_view.set_issues issues }, none)

def App.load_transitions (st : App) (c : JiraClient) (issue_key : String) : Step :=
  match c.get_transitions issue_key with
  | Except.error e => (st, some e)
  | Except.ok transitions =>
    ({ st with issue_detail_view := st.issue_detail_view.set_transitions transitions }, none)

def App.load_sprint_issues (st : App) (c : JiraClient) (sprint_id : Nat) : Step :=
  match st.config.jira.default_board_id with
  | none => (st, none)
  | some board_id =>
    match c.get_sprint_issues board_id sprint_id with
    | Except.error e => (st, some e)
    | Except.ok issues =>
      let named := (st.available_sprints.find? (fun s => s.id == sprint_id)).map
        (fun s => (s.name, s.goal))
      let named := named.getD ("Sprint " ++ toString sprint_id, none)
      ({ st with sprint_view := st.sprint_view.set_issues issues named.1 named.2 }, none)

def App.handle_sprint_input (st : App) (key : KeyCode) (c : JiraClient) : Step :=
  match key with
  | KeyCode.Char 'q' => ({ st with should_quit := true }, none)
  | KeyCode.Char 'h' => ({ st with show_help := !st.show_help }, none)
  | KeyCode.Char 's' => ({ st with mode := AppMode.Sprint }, none)
  | KeyCode.Char 'b' =>
    let st := { st with mode := AppMode.Backlog }
    st.load_backlog c
  | KeyCode.Char 'r' => st.refresh_sprint c
  | KeyCode.Tab =>
    ({ st with sprint_selector := (st.sprint_selector.set_sprints st.available_sprints).activate,
               mode := AppMode.SprintSelector }, none)
  | KeyCode.Char 'B' =>
    ({ st with board_selector := (st.board_selector.set_boards st.available_boards).activate,
               mode := AppMode.BoardSelector }, none)
  | KeyCode.Char 'P' =>
    ({ st with project_selector :=
                 (st.project_selector.set_projects st.available_projects).activate,
               mode := AppMode.ProjectSelector }, none)
  | KeyCode.Down => ({ st with sprint_view := st.sprint_view.next }, none)
  | KeyCode.Char 'j' => ({ st with sprint_view := st.sprint_view.next }, none)
  | KeyCode.Up => ({ st with sprint_view := st.sprint_view.previous }, none)
  | KeyCode.Char 'k' => ({ st with sprint_view := st.sprint_view.previous }, none)
  | KeyCode.Enter =>
    match st.sprint_view.selected_issue with
    | none => (st, none)
    | some issue =>
      let st := { st with issue_detail_view := st.issue_detail_view.set_issue issue }
      match st.load_transitions c issue.key with
      | (st, some e) => (st, some e)
      | (st, none) => ({ st with mode := AppMode.IssueDetail }, none)
  | _ => (st, none)

def App.handle_backlog_input (st : App) (key : KeyCode) (c : JiraClient) : Step :=
  match key with
  | KeyCode.Char 'q' => ({ st with should_quit := true }, none)
  | KeyCode.Char 'h' => ({ st with show_help := !st.show_help }, none)
  | KeyCode.Char 's' =>
    let st := { st with mode := AppMode.Sprint }
    st.refresh_sprint c
  | KeyCode.Char 'b' => ({ st with mode := AppMode.Backlog }, none)
  | KeyCode.Char 'r' => st.load_backlog c
  | KeyCode.Down => ({ st with backlog_view := st.backlog_view.next }, none)
  | KeyCode.Char 'j' => ({ st with backlog_view := st.backlog_view.next }, none)
  | KeyCode.Up => ({ st with backlog_view := st.backlog_view.previous }, none)
  | KeyCode.Char 'k' => ({ st with backlog_view := st.backlog_view.previous }, none)
  | KeyCode.Enter =>
    match st.backlog_view.selected_issue with
    | none => (st, none)
    | some issue =>
      let st := { st with issue_detail_view := st.issue_detail_view.set_issue issue }
      match st.load_transitions c issue.key with
      | (st, some e) => (st, some e)
      | (st, none) => ({ st with mode := AppMode.IssueDetail }, none)
  | _ => (st, none)

def App.hide_transitions (st : App) : App :=
  { st with issue_detail_view := { st.issue_detail_view with show_transitions := false } }

def App.handle_issue_detail_input (st : App) (key : KeyCode) (c : JiraClient) : Step :=
  match key with
  | KeyCode.Char 'q' => ({ st with should_quit := true }, none)
  | KeyCode.Char 'h' => ({ st with show_help := !st.show_help }, none)
  | KeyCode.Esc =>
    if st.issue_detail_view.show_transitions then (st.hide_transitions, none)
    else ({ st with mode := AppMode.Sprint }, none)
  | KeyCode.Char 'c' =>
    ({ st with input_view := InputView.new "Add Comment", mode := AppMode.AddComment }, none)
  | KeyCode.Char 'e' =>
    let st := { st with input_view := InputView.new "Edit Issue Summary" }
    let st := match st.issue_detail_view.issue with
      | some issue =>
        { st with input_view :=
            { st.input_view with input := issue.fields.summary.toList,
                                 cursor_position := issue.fields.summary.toList.length } }
      | none => st
    ({ st with mode := AppMode.EditIssue }, none)
  | KeyCode.Char 't' =>
    ({ st with issue_detail_view := { st.issue_detail_view with show_transitions := true } },
     none)
  | KeyCode.Down =>
    if st.issue_detail_view.show_transitions then
      ({ st with issue_detail_view := st.issue_detail_view.next_transition }, none)
    else (st, none)
  | KeyCode.Char 'j' =>
    if st.issue_detail_view.show_transitions then
      ({ st with issue_detail_view := st.issue_detail_view.next_transition }, none)
    else (st, none)
  | KeyCode.Up =>
    if st.issue_detail_view.show_transitions then
      ({ st with issue_detail_view := st.issue_detail_view.previous_transition }, none)
    else (st, none)
  | KeyCode.Char 'k' =>
    if st.issue_detail_view.show_transitions then
      ({ st with issue_detail_view := st.issue_detail_view.previous_transition }, none)
    else (st, none)
  | KeyCode.Enter =>
    if st.issue_detail_view.show_transitions then
      match st.issue_detail_view.selected_transition, st.issue_detail_view.issue with
      | some transition, some issue =>
        (match c.transition_issue issue.key transition.id with
         | Except.error e => (st, some e)
         | Except.ok _ =>
           match c.get_issue issue.key with
           | Except.error e => (st, some e)
           | Except.ok updated_issue =>
             let st := { st with issue_detail_view :=
                           st.issue_detail_view.set_issue updated_issue }
             match st.load_transitions c issue.key with
             | (st, some e) => (st, some e)
             | (st, none) => (st.hide_transitions, none))
      | _, _ => (st.hide_transitions, none)
    else (st, none)
  | _ => (st, none)

def App.handle_comment_input (st : App) (key : KeyCode) (c : JiraClient) : Step :=
  match key with
  | KeyCode.Esc =>
    ({ st with input_view := st.input_view.clear, mode := AppMode.IssueDetail }, none)
  | KeyCode.Enter =>
    let posted : Step :=
      match st.issue_detail_view.issue with
      | some issue =>
        let comment := st.input_view.get_input
        if !comment.isEmpty then
          match c.add_comment issue.key comment with
          | Except.error e => (st, some e)
          | Except.ok _ =>
            match c.get_issue issue.key with
            | Except.error e => (st, some e)
            | Except.ok updated_issue =>
              ({ st with issue_detail_view := st.issue_detail_view.set_issue updated_issue },
               none)
        else (st, none)
      | none => (st, none)
    match posted with
    | (st, some e) => (st, some e)
    | (st, none) =>
      ({ st with input_view := st.input_view.clear, mode := AppMode.IssueDetail }, none)
  | KeyCode.Backspace => ({ st with input_view := st.input_view.pop_char }, none)
  | KeyCode.Left => ({ st with input_view := st.input_view.move_cursor_left }, none)
  | KeyCode.Right => ({ st with input_view := st.input_view.move_cursor_right }, none)
  | KeyCode.Char ch => ({ st with input_view := st.input_view.push_char ch }, none)
  | _ => (st, none)

def App.handle_edit_input (st : App) (key : KeyCode) (_c : JiraClient) : Step :=
  match key with
  | KeyCode.Esc =>
    ({ st with input_view := st.input_view.clear, mode := AppMode.IssueDetail }, none)
  | KeyCode.Enter =>
    ({ st with input_view := st.input_view.clear, mode := AppMode.IssueDetail }, none)
  | KeyCode.Backspace => ({ st with input_view := st.input_view.pop_char }, none)
  | KeyCode.Left => ({ st with input_view := st.input_view.move_cursor_left }, none)
  | KeyCode.Right => ({ st with input_view := st.input_view.move_cursor_right }, none)
  | KeyCode.Char ch => ({ st with input_view := st.input_view.push_char ch }, none)
  | _ => (st, none)

def App.handle_sprint_selector_input (st : App) (key : KeyCode) (c : JiraClient) : Step :=
  match key with
  | KeyCode.Char 'q' => ({ st with should_quit := true }, none)
  | KeyCode.Char 'h' => ({ st with show_help := !st.show_help }, none)
  | KeyCode.Esc =>
    ({ st with sprint_selector := st.sprint_selector.deactivate, mode := AppMode.Sprint }, none)
  | KeyCode.Down => ({ st with sprint_selector := st.sprint_selector.next }, none)
  | KeyCode.Char 'j' => ({ st with sprint_selector := st.sprint_selector.next }, none)
  | KeyCode.Up => ({ st with sprint_selector := st.sprint_selector.previous }, none)
  | KeyCode.Char 'k' => ({ st with sprint_selector := st.sprint_selector.previous }, none)
  | KeyCode.Enter =>
    match st.sprint_selector.selected_sprint_id with
    | none => (st, none)
    | some sprint_id =>
      let st := { st with current_sprint_id := some sprint_id }
      match st.load_sprint_issues c sprint_id with
      | (st, some e) => (st, some e)
      | (st, none) =>
        ({ st with sprint_selector := st.sprint_selector.deactivate, mode := AppMode.Sprint },
         none)
  | KeyCode.Char 'e' =>
    match st.sprint_selector.selected_sprint with
    | none => (st, none)
    | some sprint =>
      ({ st with input_view :=
                   { InputView.new ("Edit Sprint Name: " ++ sprint.name) with
                       input := sprint.name.toList,
                       cursor_position := sprint.name.toList.length },
                 mode := AppMode.EditSprintName }, none)
  | _ => (st, none)

def App.handle_edit_sprint_name_input (st : App) (key : KeyCode) (c : JiraClient) : Step :=
  match key with
  | KeyCode.Esc =>
    ({ st with input_view := st.input_view.clear, mode := AppMode.SprintSelector }, none)
  | KeyCode.Enter =>
    let updated : Step :=
      match st.sprint_selector.selected_sprint with
      | some sprint =>
        let new_name := st.input_view.get_input
        if !new_name.isEmpty then
          match c.update_sprint sprint.id
              { SprintUpdate.default with name := some (String.mk new_name) } with
          | Except.error e => (st, some e)
          | Except.ok _ => st.refresh_sprints c
        else (st, none)
      | none => (st, none)
    match updated with
    | (st, some e) => (st, some e)
    | (st, none) =>
      ({ st with input_view := st.input_view.clear, mode := AppMode.SprintSelector }, none)
  | KeyCode.Backspace => ({ st with input_view := st.input_view.pop_char }, none)
  | KeyCode.Left => ({ st with input_view := st.input_view.move_cursor_left }, none)
  | KeyCode.Right => ({ st with input_view := st.input_view.move_cursor_right }, none)
  | KeyCode.Char ch => ({ st with input_view := st.input_view.push_char ch }, none)
  | _ => (st, none)

/-- The three assignments app.rs performs on board-selector `Enter`
before reloading: remember the new default board, clear the cached
sprint list and forget the current sprint id. -/
def App.board_switch (st : App) (board_id : Nat) : App :=
  { st with config := { st.config with jira :=
                          { st.config.jira with default_board_id := some board_id } },
            available_sprints := [],
            current_sprint_id := none }

def App.handle_board_selector_input (st : App) (key : KeyCode) (c : JiraClient) : Step :=
  match key with
  | KeyCode.Char 'q' => ({ st with should_quit := true }, none)
  | KeyCode.Char 'h' => ({ st with show_help := !st.show_help }, none)
  | KeyCode.Esc =>
    ({ st with board_selector := st.board_selector.deactivate, mode := AppMode.Sprint }, none)
  | KeyCode.Down => ({ st with board_selector := st.board_selector.next }, none)
  | KeyCode.Char 'j' => ({ st with board_selector := st.board_selector.next }, none)
  | KeyCode.Up => ({ st with board_selector := st.board_selector.previous }, none)
  | KeyCode.Char 'k' => ({ st with board_selector := st.board_selector.previous }, none)
  | KeyCode.Enter =>
    match st.board_selector.selected_board_id with
    | none => (st, none)
    | some board_id =>
      let st := st.board_switch board_id
      match st.refresh_sprint c with
      | (st, some e) => (st, some e)
      | (st, none) =>
        ({ st with board_selector := st.board_selector.deactivate, mode := AppMode.Sprint },
         none)
  | _ => (st, none)

/-- Rust `str::contains` for a string pattern: some suffix of the
haystack starts with the needle.  Byte-level search on valid UTF-8 finds
matches only at character boundaries (UTF-8 is self-synchronizing), so
searching the character lists is equivalent. -/
def strContains (haystack needle : List Char) : Bool :=
  match haystack with
  | [] => needle.isEmpty
  | ch :: rest => needle.isPrefixOf (ch :: rest) || strContains rest needle

/-- The board filter of project-selector `Enter`: the board's name
contains the project key as a substring, or the board's location carries
exactly that project key. -/
def board_matches_project (board : Board) (project_key : String) : Bool :=
  strContains board.name.toList project_key.toList ||
  (match board.location with
   | some loc => loc.project_key == some project_key
   | none => false)

def App.handle_project_selector_input (st : App) (key : KeyCode) (c : JiraClient) : Step :=
  match key with
  | KeyCode.Char 'q' => ({ st with should_quit := true }, none)
  | KeyCode.Char 'h' => ({ st with show_help := !st.show_help }, none)
  | KeyCode.Esc =>
    ({ st with project_selector := st.project_selector.deactivate, mode := AppMode.Sprint },
     none)
  | KeyCode.Down => ({ st with project_selector := st.project_selector.next }, none)
  | KeyCode.Char 'j' => ({ st with project_selector := st.project_selector.next }, none)
  | KeyCode.Up => ({ st with project_selector := st.project_selector.previous }, none)
  | KeyCode.Char 'k' => ({ st with project_selector := st.project_selector.previous }, none)
  | KeyCode.Enter =>
    match st.project_selector.selected_project with
    | none => (st, none)
    | some project =>
      match c.get_boards with
      | Except.error e => (st, some e)
      | Except.ok boards =>
        let project_boards := boards.filter (fun b => board_matches_project b project.key)
        let filtered : Step :=
          match project_boards with
          | [] => (st, none)
          | b0 :: rest =>
            let st := { st with
              available_boards := b0 :: rest,
              config := { st.config with jira :=
                            { st.config.jira with default_board_id := some b0.id } },
              available_sprints := [],
              current_sprint_id := none }
            st.refresh_sprint c
        match filtered with
        | (st, some e) => (st, some e)
        | (st, none) =>
          ({ st with project_selector := st.project_selector.deactivate,
                     mode := AppMode.Sprint }, none)
  | _ => (st, none)

def App.handle_help_input (st : App) (key : KeyCode) : App :=
  match key with
  | KeyCode.Char 'q' => { st with should_quit := true }
  | KeyCode.Char 'h' => { st with show_help := false }
  | KeyCode.Esc => { st with show_help := false }
  | _ => st

def App.handle_event (st : App) (event : Event) (c : JiraClient) : Step :=
  match event with
  | Event.Key code =>
    if st.show_help then (st.handle_help_input code, none)
    else
      match st.mode with
      | AppMode.Sprint => st.handle_sprint_input code c
      | AppMode.SprintSelector => st.handle_sprint_selector_input code c
      | AppMode.BoardSelector => st.handle_board_selector_input code c
      | AppMode.ProjectSelector => st.handle_project_selector_input code c
      | AppMode.Backlog => st.handle_backlog_input code c
      | AppMode.IssueDetail => st.handle_issue_detail_input code c
      | AppMode.AddComment => st.handle_comment_input code c
      | AppMode.EditIssue => st.handle_edit_input code c
      | AppMode.EditSprintName => st.handle_edit_sprint_name_input code c
      | AppMode.Help => (st.handle_help_input code, none)
  | Event.Tick => (st, none)
  | Event.Quit => ({ st with should_quit := true }, none)

/-! ## Shared navigation lemmas -/

theorem sprint_next_issues (v : SprintView) : v.next.issues = v.issues := rfl

theorem backlog_next_issues (v : BacklogView) : v.next.issues = v.issues := rfl

theorem sprint_next_selected (v : SprintView) (L i : Nat)
    (hlen : v.issues.length = L) (hsel : v.state.selected = some i)
    (hL : 0 < L) (hi : i < L) :
    v.next.state.selected = some ((i + 1) % L) := by
  simp only [SprintView.next, ListState.select, hsel, hlen]
  by_cases h : L - 1 ≤ i
  · have hiL : i + 1 = L := by omega
    simp [h, hiL, Nat.mod_self]
  · have hlt : i + 1 < L := by omega
    simp [h, Nat.mod_eq_of_lt hlt]

theorem backlog_next_selected (v : BacklogView) (L i : Nat)
    (hlen : v.issues.length = L) (hsel : v.state.selected = some i)
    (hL : 0 < L) (hi : i < L) :
    v.next.state.selected = some ((i + 1) % L) := by
  simp only [BacklogView.next, ListState.select, hsel, hlen]
  by_cases h : L - 1 ≤ i
  · have hiL : i + 1 = L := by omega
    simp [h, hiL, Nat.mod_self]
  · have hlt : i + 1 < L := by omega
    simp [h, Nat.mod_eq_of_lt hlt]

theorem sprint_next_iter (L : Nat) (hL : 0 < L) :
    ∀ (k : Nat) (v : SprintView) (i : Nat),
      v.issues.length = L → v.state.selected = some i → i < L →
      ((SprintView.next)^[k] v).state.selected = some ((i + k) % L) ∧
      ((SprintView.next)^[k] v).issues = v.issues := by
  intro k
  induction k with
  | zero =>
    intro v i hlen hsel hi
    refine ⟨?_, rfl⟩
    simpa [Nat.mod_eq_of_lt hi] using hsel
  | succ k ih =>
    intro v i hlen hsel hi
    rw [Function.iterate_succ_apply]
    have hsel' := sprint_next_selected v L i hlen hsel hL hi
    have hlt : (i + 1) % L < L := Nat.mod_lt _ hL
    obtain ⟨h1, h2⟩ := ih v.next ((i + 1) % L)
      (by rw [sprint_next_issues, hlen]) hsel' hlt
    refine ⟨?_, by rw [h2, sprint_next_issues]⟩
    rw [h1, Nat.mod_add_mod]
    have harith : i + 1 + k = i + (k + 1) := by omega
    rw [harith]

theorem backlog_next_iter (L : Nat) (hL : 0 < L) :
    ∀ (k : Nat) (v : BacklogView) (i : Nat),
      v.issues.length = L → v.state.selected = some i → i < L →
      ((BacklogView.next)^[k] v).state.selected = some ((i + k) % L) ∧
      ((BacklogView.next)^[k] v).issues = v.issues := by
  intro k
  induction k with
  | zero =>
    intro v i hlen hsel hi
    refine ⟨?_, rfl⟩
    simpa [Nat.mod_eq_of_lt hi] using hsel
  | succ k ih =>
    intro v i hlen hsel hi
    rw [Function.iterate_succ_apply]
    have hsel' := backlog_next_selected v L i hlen hsel hL hi
    have hlt : (i + 1) % L < L := Nat.mod_lt _ hL
    obtain ⟨h1, h2⟩ := ih v.next ((i + 1) % L)
      (by rw [backlog_next_issues, hlen]) hsel' hlt
    refine ⟨?_, by rw [h2, backlog_next_issues]⟩
    rw [h1, Nat.mod_add_mod]
    have harith : i + 1 + k = i + (k + 1) := by omega
    rw [harith]

/-! ## Claim C2 -/

/-- C2: the claimed cursor invariant — `None` on an empty list, in-range
`Some` otherwise, after every operation — does NOT hold: `next` invoked
on a freshly created sprint or backlog view (empty list, no selection),
exactly what pressing `j`/Down in Sprint or Backlog mode does, leaves
the selection at `Some 0` while the list is empty.  This evaluates the
embedded code at that failing input. -/
theorem C2_next_on_empty_selects_zero :
    SprintView.new.next.issues = [] ∧
    SprintView.new.next.state.selected = some 0 ∧
    BacklogView.new.next.issues = [] ∧
    BacklogView.new.next.state.selected = some 0 := by
  refine ⟨rfl, rfl, rfl, rfl⟩

/-! ## Claim C7 -/

/-- C7: wrapping navigation.  On a non-empty list of length `L` shown in
the sprint view and the backlog view with cursor at a valid index `i`,
invoking `next` `L` times returns the cursor to `i`, and `previous` at
index `0` moves it to `L - 1`. -/
theorem C7_wrap_navigation (L i : Nat) (v : SprintView) (w : BacklogView)
    (hL : 0 < L) (hi : i < L)
    (hvl : v.issues.length = L) (hvs : v.state.selected = some i)
    (hwl : w.issues.length = L) (hws : w.state.selected = some i) :
    ((SprintView.next)^[L] v).state.selected = some i ∧
    ((BacklogView.next)^[L] w).state.selected = some i ∧
    (i = 0 → v.previous.state.selected = some (L - 1)) ∧
    (i = 0 → w.previous.state.selected = some (L - 1)) := by
  refine ⟨?_, ?_, ?_, ?_⟩
  · have h := (sprint_next_iter L hL L v i hvl hvs hi).1
    rwa [Nat.add_mod_right, Nat.mod_eq_of_lt hi] at h
  · have h := (backlog_next_iter L hL L w i hwl hws hi).1
    rwa [Nat.add_mod_right, Nat.mod_eq_of_lt hi] at h
  · intro h0
    subst h0
    simp [SprintView.previous, ListState.select, hvs, hvl]
  · intro h0
    subst h0
    simp [BacklogView.previous, ListState.select, hws, hwl]

def wIssue (k : String) : Issue :=
  { id := k, key := k,
    fields := { summary := "s", status := { id := "1", name := "To Do" } } }

def c7SprintView : SprintView :=
  { issues := [wIssue "A-2", wIssue "A-1"],
    state := { selected := some 0 }, sprint_name := "S", sprint_goal := none }

def c7BacklogView : BacklogView :=
  { issues := [wIssue "A-2", wIssue "A-1"], state := { selected := some 0 } }

/-- C7 witness: on concrete two-element views starting at index 0, two
`next` steps return to 0 and `previous` wraps to index 1. -/
theorem C7_wrap_navigation_witness :
    ((SprintView.next)^[2] c7SprintView).state.selected = some 0 ∧
    ((BacklogView.next)^[2] c7BacklogView).state.selected = some 0 ∧
    c7SprintView.previous.state.selected = some 1 ∧
    c7BacklogView.previous.state.selected = some 1 := by
  obtain ⟨h1, h2, h3, h4⟩ := C7_wrap_navigation 2 0 c7SprintView c7BacklogView
    (by decide) (by decide) (by decide) (by decide) (by decide) (by decide)
  exact ⟨h1, h2, h3 rfl, h4 rfl⟩

/-! ## Claim C8 -/

/-- One keystroke against the input buffer, as dispatched by the
text-entry handlers: insert at the cursor, backspace, cursor moves, or
clear. -/
inductive InputOp where
| push (c : Char)
| pop
| left
| right
| clear

def InputView.apply_op (v : InputView) : InputOp → InputView
| InputOp.push c => v.push_char c
| InputOp.pop => v.pop_char
| InputOp.left => v.move_cursor_left
| InputOp.right => v.move_cursor_right
| InputOp.clear => v.clear

def InputView.apply_ops (v : InputView) (ops : List InputOp) : InputView :=
  ops.foldl InputView.apply_op v

theorem input_apply_op_bound (v : InputView) (op : InputOp)
    (h : v.cursor_position ≤ v.input.length) :
    (v.apply_op op).cursor_position ≤ (v.apply_op op).input.length := by
  cases op with
  | push c =>
    have hlen : (v.input.insertIdx v.cursor_position c).length = v.input.length + 1 :=
      List.length_insertIdx v.cursor_position v.input h
    simp only [InputView.apply_op, InputView.push_char, hlen]
    omega
  | pop =>
    simp only [InputView.apply_op, InputView.pop_char]
    by_cases hc : v.cursor_position > 0
    · simp only [hc, if_true]
      have hlt : v.cursor_position - 1 < v.input.length := by omega
      simp only [List.length_eraseIdx, hlt, if_true]
      omega
    · simp [hc, h]
  | left =>
    simp only [InputView.apply_op, InputView.move_cursor_left]
    by_cases hc : v.cursor_position > 0
    · simp only [hc, if_true]; omega
    · simp [hc, h]
  | right =>
    simp only [InputView.apply_op, InputView.move_cursor_right]
    by_cases hc : v.cursor_position < v.input.length
    · simp only [hc, if_true]; omega
    · simp [hc, h]
  | clear =>
    simp [InputView.apply_op, InputView.clear]

theorem input_apply_ops_bound (ops : List InputOp) :
    ∀ v : InputView, v.cursor_position ≤ v.input.length →
      (v.apply_ops ops).cursor_position ≤ (v.apply_ops ops).input.length := by
  induction ops with
  | nil => intro v h; exact h
  | cons op ops ih =>
    intro v h
    exact ih (v.apply_op op) (input_apply_op_bound v op h)

/-- C8: starting from any buffer state satisfying the cursor bound
(which `InputView::new` and every seeding site establish), after every
prefix of an arbitrary keystroke sequence the cursor stays within
`[0, length]`; moreover backspace on an empty buffer and a right-move
with the cursor at the end are exact no-ops, so neither can fail. -/
theorem C8_input_buffer_bounds (v : InputView) (ops : List InputOp)
    (h : v.cursor_position ≤ v.input.length) :
    (∀ n : Nat, (v.apply_ops (ops.take n)).cursor_position ≤
       (v.apply_ops (ops.take n)).input.length) ∧
    (v.input = [] → v.pop_char = v) ∧
    (v.cursor_position = v.input.length → v.move_cursor_right = v) := by
  refine ⟨fun n => input_apply_ops_bound (ops.take n) v h, ?_, ?_⟩
  · intro hempty
    have hc : v.cursor_position = 0 := by
      rw [hempty] at h; simpa using h
    simp [InputView.pop_char, hc]
  · intro hend
    simp [InputView.move_cursor_right, hend]

def c8View : InputView := InputView.new "Input"

/-- C8 witness: a concrete keystroke burst on the fresh buffer keeps the
bound, and the two edge operations are no-ops there. -/
theorem C8_input_buffer_bounds_witness :
    ((c8View.apply_ops ([InputOp.push 'h', InputOp.left, InputOp.pop,
        InputOp.right, InputOp.clear].take 3)).cursor_position ≤
      (c8View.apply_ops ([InputOp.push 'h', InputOp.left, InputOp.pop,
        InputOp.right, InputOp.clear].take 3)).input.length) ∧
    c8View.pop_char = c8View ∧
    c8View.move_cursor_right = c8View := by
  obtain ⟨h1, h2, h3⟩ := C8_input_buffer_bounds c8View
    [InputOp.push 'h', InputOp.left, InputOp.pop, InputOp.right, InputOp.clear]
    (by decide)
  exact ⟨h1 3, h2 rfl, h3 rfl⟩

/-! ## Claim C10 -/

theorem issueKeyDesc_trans (a b c : Issue)
    (hab : issueKeyDesc a b = true) (hbc : issueKeyDesc b c = true) :
    issueKeyDesc a c = true :=
  charListLe_trans c.key.toList b.key.toList a.key.toList hbc hab

theorem issueKeyDesc_total (a b : Issue) :
    issueKeyDesc a b = true ∨ issueKeyDesc b a = true :=
  (charListLe_total b.key.toList a.key.toList).imp id id

theorem sortBy_ne_nil {α : Type} (le : α → α → Bool) {l : List α} (h : l ≠ []) :
    (sortBy le l).isEmpty = false := by
  have hlen : (sortBy le l).length = l.length := (sortBy_perm le l).length_eq
  cases hs : sortBy le l with
  | nil => rw [hs] at hlen; cases l with
    | nil => exact absurd rfl h
    | cons a as => simp at hlen
  | cons a as => simp

/-- C10: `set_issues` of the sprint view and the backlog view stores the
given issues sorted by key in descending lexicographic order
(`issueKeyDesc a b` says the key of `b` is at most the key of `a`): the
stored list is a permutation of the input that is pairwise descending,
and for a non-empty input the selection is reset to index 0. -/
theorem C10_set_issues_sorts_desc (sv : SprintView) (bv : BacklogView)
    (issues : List Issue) (name : String) (goal : Option String)
    (hne : issues ≠ []) :
    ((sv.set_issues issues name goal).issues.Perm issues ∧
     (sv.set_issues issues name goal).issues.Pairwise (fun a b => issueKeyDesc a b = true) ∧
     (sv.set_issues issues name goal).state.selected = some 0) ∧
    ((bv.set_issues issues).issues.Perm issues ∧
     (bv.set_issues issues).issues.Pairwise (fun a b => issueKeyDesc a b = true) ∧
     (bv.set_issues issues).state.selected = some 0) := by
  have hempty := sortBy_ne_nil issueKeyDesc hne
  have hperm := sortBy_perm issueKeyDesc issues
  have hpair := sortBy_pairwise issueKeyDesc_trans issueKeyDesc_total issues
  constructor
  · refine ⟨?_, ?_, ?_⟩ <;>
      simp [SprintView.set_issues, ListState.select, hempty, hperm, hpair]
  · refine ⟨?_, ?_, ?_⟩ <;>
      simp [BacklogView.set_issues, ListState.select, hempty, hperm, hpair]

/-- C10 witness: two concretely keyed issues arrive in ascending order
and are stored descending with the cursor reset to 0. -/
theorem C10_set_issues_sorts_desc_witness :
    ((SprintView.new.set_issues [wIssue "A-1", wIssue "A-2"] "S" none).issues.Perm
       [wIssue "A-1", wIssue "A-2"] ∧
     (SprintView.new.set_issues [wIssue "A-1", wIssue "A-2"] "S" none).issues.Pairwise
       (fun a b => issueKeyDesc a b = true) ∧
     (SprintView.new.set_issues [wIssue "A-1", wIssue "A-2"] "S" none).state.selected =
       some 0) ∧
    ((BacklogView.new.set_issues [wIssue "A-1", wIssue "A-2"]).issues.Perm
       [wIssue "A-1", wIssue "A-2"] ∧
     (BacklogView.new.set_issues [wIssue "A-1", wIssue "A-2"]).issues.Pairwise
       (fun a b => issueKeyDesc a b = true) ∧
     (BacklogView.new.set_issues [wIssue "A-1", wIssue "A-2"]).state.selected = some 0) :=
  C10_set_issues_sorts_desc SprintView.new BacklogView.new
    [wIssue "A-1", wIssue "A-2"] "S" none (by decide)

/-! ## Claim C6 -/

/-- C6: project-selector `Enter` whose board filter (name contains the
project key, or the location's project key equals it) matches zero
boards changes nothing but deactivating the selector and returning to
Sprint mode, with no error: `available_boards`, `default_board_id`,
`available_sprints`, `current_sprint_id` and every view keep their exact
previous values. -/
theorem C6_project_filter_noop (st : App) (c : JiraClient) (p : Project)
    (boards : List Board)
    (hp : st.project_selector.selected_project = some p)
    (hb : c.get_boards = Except.ok boards)
    (hf : boards.filter (fun b => board_matches_project b p.key) = []) :
    st.handle_project_selector_input KeyCode.Enter c =
      ({ st with project_selector := st.project_selector.deactivate,
                 mode := AppMode.Sprint }, none) := by
  simp [App.handle_project_selector_input, hp, hb, hf]

def c6Board : Board :=
  { id := 10, name := "Alpha board", board_type := "scrum",
    location := some { project_key := some "ALPHA" } }

def c6Project : Project :=
  { id := "900", key := "ZZZ", name := "Zeta", project_type_key := "software" }

def c6State : App :=
  { App.new { jira := { default_board_id := some 10 } } with
      mode := AppMode.ProjectSelector,
      available_boards := [c6Board],
      project_selector :=
        { projects := [c6Project], state := { selected := some 0 }, is_active := true } }

def errClient : JiraClient :=
  { get_issue := fun _ => Except.error { msg := "offline" },
    get_sprint_issues := fun _ _ => Except.error { msg := "offline" },
    get_backlog := fun _ => Except.error { msg := "offline" },
    get_transitions := fun _ => Except.error { msg := "offline" },
    transition_issue := fun _ _ => Except.error { msg := "offline" },
    add_comment := fun _ _ => Except.error { msg := "offline" },
    get_boards := Except.error { msg := "offline" },
    get_board_sprints := fun _ => Except.error { msg := "offline" },
    update_sprint := fun _ _ => Except.error { msg := "offline" } }

def c6Client : JiraClient := { errClient with get_boards := Except.ok [c6Board] }

/-- C6 witness: selecting project key "ZZZ" while the only known board
is named "Alpha board" with location key "ALPHA" deactivates the
selector and nothing else. -/
theorem C6_project_filter_noop_witness :
    c6State.handle_project_selector_input KeyCode.Enter c6Client =
      ({ c6State with project_selector := c6State.project_selector.deactivate,
                      mode := AppMode.Sprint }, none) :=
  C6_project_filter_noop c6State c6Client c6Project [c6Board] rfl rfl (by decide)

/-! ## Claim C5 -/

theorem getLast?_mem {α : Type} {l : List α} {a : α} (h : l.getLast? = some a) : a ∈ l := by
  obtain ⟨hne, ha⟩ := List.mem_getLast?_eq_getLast (l := l) (x := a) (Option.mem_def.mpr h)
  rw [ha]
  exact List.getLast_mem hne

/-- Running `refresh_sprint` on a state whose sprint cache was just
invalidated: either no sprint gets selected, or the one selected comes
from the list the oracle returned for the new board. -/
theorem refresh_sprint_fresh (st : App) (c : JiraClient) (bid : Nat)
    (hb : st.config.jira.default_board_id = some bid)
    (hs : st.available_sprints = [])
    (hc : st.current_sprint_id = none) :
    (st.refresh_sprint c).1.current_sprint_id = none ∨
    ∃ l s, c.get_board_sprints bid = Except.ok l ∧ s ∈ l ∧
      (st.refresh_sprint c).1.current_sprint_id = some s.id ∧
      (st.refresh_sprint c).1.available_sprints = l := by
  have hempty : st.available_sprints.isEmpty = true := by simp [hs]
  cases hbs : c.get_board_sprints bid with
  | error e =>
    left
    simp [App.refresh_sprint, hb, hempty, hbs, hc]
  | ok l =>
    cases hl : l.getLast? with
    | none =>
      left
      simp [App.refresh_sprint, hb, hempty, hbs, hc, hl]
    | some s =>
      right
      refine ⟨l, s, rfl, getLast?_mem hl, ?_, ?_⟩
      · cases hgi : c.get_sprint_issues bid s.id <;>
          simp [App.refresh_sprint, hb, hempty, hbs, hc, hl, hgi]
      · cases hgi : c.get_sprint_issues bid s.id <;>
          simp [App.refresh_sprint, hb, hempty, hbs, hc, hl, hgi]

/-- C5: board-selector `Enter` on a selected board first performs the
switch (`board_switch`), whose state has an empty sprint cache and no
current sprint id — that is the exact state handed to the reload — and
whatever the reload then does, the handler can only leave the current
sprint id unset or set to a sprint fetched for the NEW board: no sprint
id of the previous board survives. -/
theorem C5_board_switch_invalidation (st : App) (c : JiraClient) (bid : Nat)
    (h : st.board_selector.selected_board_id = some bid) :
    (st.board_switch bid).available_sprints = [] ∧
    (st.board_switch bid).current_sprint_id = none ∧
    ((st.handle_board_selector_input KeyCode.Enter c).1.current_sprint_id = none ∨
     ∃ l s, c.get_board_sprints bid = Except.ok l ∧ s ∈ l ∧
       (st.handle_board_selector_input KeyCode.Enter c).1.current_sprint_id = some s.id ∧
       (st.handle_board_selector_input KeyCode.Enter c).1.available_sprints = l) := by
  refine ⟨rfl, rfl, ?_⟩
  have hfresh := refresh_sprint_fresh (st.board_switch bid) c bid rfl rfl rfl
  cases hres : (st.board_switch bid).refresh_sprint c with
  | mk st1 errOpt =>
    rw [hres] at hfresh
    cases errOpt with
    | some e =>
      simpa [App.handle_board_selector_input, h, hres] using hfresh
    | none =>
      simpa [App.handle_board_selector_input, h, hres] using hfresh

def spr (n : Nat) (nm : String) : Sprint :=
  { id := n, name := nm, state := "active", goal := none }

def c5State : App :=
  { App.new { jira := { default_board_id := some 1 } } with
      mode := AppMode.BoardSelector,
      current_sprint_id := some 7,
      available_sprints := [spr 7 "Sprint 7"],
      board_selector :=
        { boards := [{ id := 2, name := "B2", board_type := "scrum", location := none }],
          state := { selected := some 0 }, is_active := true } }

def c5Client : JiraClient :=
  { errClient with
      get_board_sprints := fun _ => Except.ok [spr 4 "Sprint 4"],
      get_sprint_issues := fun _ _ => Except.ok [] }

/-- C5 witness: switching from a board whose current sprint is 7 to
board 2 clears the cache at the switch point, and the handler ends with
a sprint of the newly fetched list (or none). -/
theorem C5_board_switch_invalidation_witness :
    (c5State.board_switch 2).available_sprints = [] ∧
    (c5State.board_switch 2).current_sprint_id = none ∧
    ((c5State.handle_board_selector_input KeyCode.Enter c5Client).1.current_sprint_id = none ∨
     ∃ l s, c5Client.get_board_sprints 2 = Except.ok l ∧ s ∈ l ∧
       (c5State.handle_board_selector_input KeyCode.Enter c5Client).1.current_sprint_id =
         some s.id ∧
       (c5State.handle_board_selector_input KeyCode.Enter c5Client).1.available_sprints = l) :=
  C5_board_switch_invalidation c5State c5Client 2 rfl

/-! ## Claim C3 -/

def c3State : App :=
  { App.new { jira := { default_board_id := some 1 } } with
      mode := AppMode.SprintSelector,
      available_sprints := [spr 7 "Sprint 7"],
      sprint_selector :=
        { sprints := [spr 7 "Sprint 7"], state := { selected := some 0 },
          is_active := true } }

/-- C3 counterexample: sprint-selector `Enter` on sprint 7 against a
failing network leaves an error AND a mutated state — `current_sprint_id`
went from `none` to `some 7` although the issue fetch failed, refuting
"a failed action performs no partial mutation" at this input. -/
theorem C3_counterexample :
    (c3State.handle_sprint_selector_input KeyCode.Enter errClient).2 =
      some { msg := "offline" } ∧
    (c3State.handle_sprint_selector_input KeyCode.Enter errClient).1.current_sprint_id ≠
      c3State.current_sprint_id := by
  refine ⟨rfl, by decide⟩

/-- C3 amended: a failed network call aborts the rest of the
input-handling step, but mutations already performed before the call
stay: sprint-selector `Enter` records the selected sprint id into
`current_sprint_id` before fetching its issues, so on failure the state
is exactly the previous state with that one field updated (every view,
list cache and the mode untouched) and the error is propagated. -/
theorem C3_failed_sprint_select_keeps_new_id (st : App) (c : JiraClient)
    (sid bid : Nat) (e : JiraError)
    (hsel : st.sprint_selector.selected_sprint_id = some sid)
    (hb : st.config.jira.default_board_id = some bid)
    (hfail : c.get_sprint_issues bid sid = Except.error e) :
    st.handle_sprint_selector_input KeyCode.Enter c =
      ({ st with current_sprint_id := some sid }, some e) := by
  simp [App.handle_sprint_selector_input, App.load_sprint_issues, hsel, hb, hfail]

/-- C3 witness for the amended claim, at the counterexample's input. -/
theorem C3_failed_sprint_select_keeps_new_id_witness :
    c3State.handle_sprint_selector_input KeyCode.Enter errClient =
      ({ c3State with current_sprint_id := some 7 }, some { msg := "offline" }) :=
  C3_failed_sprint_select_keeps_new_id c3State errClient 7 1 { msg := "offline" } rfl rfl rfl

/-! ## Claim C4 -/

def c4State : App :=
  { App.new { jira := { default_board_id := some 1 } } with
      available_sprints := [spr 5 "Sprint 5", spr 3 "Sprint 3"] }

def c4Client : JiraClient :=
  { errClient with get_sprint_issues := fun _ _ => Except.ok [] }

/-- C4 counterexample: with no current sprint id and the cached list
`[id 5, id 3]` (the client never sorts what the server returned),
`refresh_sprint` selects id 3 — the LAST list element — although the
highest id in the list is 5, refuting "selects the sprint with the
highest id". -/
theorem C4_counterexample :
    (c4State.refresh_sprint c4Client).1.current_sprint_id = some 3 ∧
    ∃ s ∈ c4State.available_sprints, 3 < s.id := by
  exact ⟨rfl, spr 5 "Sprint 5", by decide, by decide⟩

/-- C4 amended: "refresh current sprint" with `current_sprint_id` unset
and a non-empty cached sprint list selects the LAST ELEMENT of that list
in its stored (server-returned) order — which is the highest id only if
the server already sorted ascending by id — stores its id and loads its
issues into the sprint view. -/
theorem C4_refresh_selects_list_last (st : App) (c : JiraClient) (bid : Nat)
    (last : Sprint) (issues : List Issue)
    (hb : st.config.jira.default_board_id = some bid)
    (hc : st.current_sprint_id = none)
    (hlast : st.available_sprints.getLast? = some last)
    (hok : c.get_sprint_issues bid last.id = Except.ok issues) :
    st.refresh_sprint c =
      ({ st with current_sprint_id := some last.id,
                 sprint_view := st.sprint_view.set_issues issues last.name last.goal },
       none) := by
  have hne : st.available_sprints.isEmpty = false := by
    cases hsp : st.available_sprints with
    | nil => rw [hsp] at hlast; simp at hlast
    | cons a as => simp
  simp [App.refresh_sprint, hb, hne, hc, hlast, hok]

/-- C4 witness for the amended claim at the counterexample's input. -/
theorem C4_refresh_selects_list_last_witness :
    c4State.refresh_sprint c4Client =
      ({ c4State with current_sprint_id := some 3,
                      sprint_view := c4State.sprint_view.set_issues [] "Sprint 3" none },
       none) :=
  C4_refresh_selects_list_last c4State c4Client 1 (spr 3 "Sprint 3") [] rfl rfl rfl rfl

/-! ## Claim C9 -/

/-- C9 counterexample: in AddComment mode (help overlay off) the key
`q` does NOT request shutdown — the quit flag stays false and the
character is inserted into the comment buffer instead. -/
theorem C9_counterexample :
    ((({ App.new { jira := { default_board_id := none } } with
          mode := AppMode.AddComment } : App).handle_event
        (Event.Key (KeyCode.Char 'q')) errClient).1.should_quit = false) ∧
    ((({ App.new { jira := { default_board_id := none } } with
          mode := AppMode.AddComment } : App).handle_event
        (Event.Key (KeyCode.Char 'q')) errClient).1.input_view.input = ['q']) := by
  refine ⟨rfl, rfl⟩

/-- C9 amended: with the help overlay inactive, `q` requests shutdown in
every mode EXCEPT the three text-entry modes; in AddComment, EditIssue
and EditSprintName the keystroke is instead inserted into the input
buffer at the cursor and the quit flag is left as it was. -/
theorem sprint_input_quit (st : App) (c : JiraClient) :
    st.handle_sprint_input (KeyCode.Char 'q') c = ({ st with should_quit := true }, none) := rfl

theorem backlog_input_quit (st : App) (c : JiraClient) :
    st.handle_backlog_input (KeyCode.Char 'q') c = ({ st with should_quit := true }, none) := rfl

theorem issue_detail_input_quit (st : App) (c : JiraClient) :
    st.handle_issue_detail_input (KeyCode.Char 'q') c =
      ({ st with should_quit := true }, none) := rfl

theorem sprint_selector_input_quit (st : App) (c : JiraClient) :
    st.handle_sprint_selector_input (KeyCode.Char 'q') c =
      ({ st with should_quit := true }, none) := rfl

theorem board_selector_input_quit (st : App) (c : JiraClient) :
    st.handle_board_selector_input (KeyCode.Char 'q') c =
      ({ st with should_quit := true }, none) := rfl

theorem project_selector_input_quit (st : App) (c : JiraClient) :
    st.handle_project_selector_input (KeyCode.Char 'q') c =
      ({ st with should_quit := true }, none) := rfl

theorem help_input_quit (st : App) :
    st.handle_help_input (KeyCode.Char 'q') = { st with should_quit := true } := rfl

theorem comment_input_char (st : App) (c : JiraClient) (ch : Char) :
    st.handle_comment_input (KeyCode.Char ch) c =
      ({ st with input_view := st.input_view.push_char ch }, none) := rfl

theorem edit_input_char (st : App) (c : JiraClient) (ch : Char) :
    st.handle_edit_input (KeyCode.Char ch) c =
      ({ st with input_view := st.input_view.push_char ch }, none) := rfl

theorem edit_sprint_name_input_char (st : App) (c : JiraClient) (ch : Char) :
    st.handle_edit_sprint_name_input (KeyCode.Char ch) c =
      ({ st with input_view := st.input_view.push_char ch }, none) := rfl

theorem C9_quit_except_text_entry (st : App) (c : JiraClient)
    (hh : st.show_help = false) :
    ((st.mode = AppMode.Sprint ∨ st.mode = AppMode.SprintSelector ∨
      st.mode = AppMode.BoardSelector ∨ st.mode = AppMode.ProjectSelector ∨
      st.mode = AppMode.Backlog ∨ st.mode = AppMode.IssueDetail ∨
      st.mode = AppMode.Help) →
        (st.handle_event (Event.Key (KeyCode.Char 'q')) c).1.should_quit = true) ∧
    ((st.mode = AppMode.AddComment ∨ st.mode = AppMode.EditIssue ∨
      st.mode = AppMode.EditSprintName) →
        (st.handle_event (Event.Key (KeyCode.Char 'q')) c).1.should_quit = st.should_quit ∧
        (st.handle_event (Event.Key (KeyCode.Char 'q')) c).1.input_view =
          st.input_view.push_char 'q') := by
  constructor
  · intro hm
    rcases hm with hm | hm | hm | hm | hm | hm | hm <;>
      simp only [App.handle_event, hh, hm, Bool.false_eq_true, if_false,
        sprint_input_quit, sprint_selector_input_quit, board_selector_input_quit,
        project_selector_input_quit, backlog_input_quit, issue_detail_input_quit,
        help_input_quit]
  · intro hm
    rcases hm with hm | hm | hm <;>
      simp only [App.handle_event, hh, hm, Bool.false_eq_true, if_false,
        comment_input_char, edit_input_char, edit_sprint_name_input_char] <;>
      exact ⟨trivial, trivial⟩

/-- C9 witness for the amended claim: Sprint mode quits on `q`; the
AddComment conjunct is exercised by the counterexample input shape. -/
theorem C9_quit_except_text_entry_witness :
    ((App.new { jira := { default_board_id := none } }).handle_event
        (Event.Key (KeyCode.Char 'q')) errClient).1.should_quit = true :=
  (C9_quit_except_text_entry (App.new { jira := { default_board_id := none } })
    errClient rfl).1 (Or.inl rfl)

end Jira2You
